import Mathlib

/-!
Shallow embedding of the train reservation system (src/main.cpp) and proofs
of the specification claims about it.

The program is a multithreaded simulator: `MAX_THREADS` worker threads each
loop, picking a random train and a random query kind (inquiry, booking,
cancellation), passing through a condition-variable admission gate bounded by
`MAX_CONCURRENT_ACCESS`, and mutating `available_seats[train]` under
`train_mutex[train]`.  We embed:

* the arithmetic of the three queries on a single seat counter (`book`,
  `cancel`, `inquire`, dispatched by `execute_query`);
* the admission gate as a labelled step relation on an explicit state
  (`GateState`, `GateStep`), with `active_access_count` incremented only when
  the wait predicate holds and decremented by a current holder;
* one worker-loop iteration as the sequence of lock/unlock/read/write events
  it performs (`worker_iteration_trace`), including the deadline check;
* the final reporting loop of `main` (`report_loop`, `report_events_loop`).

Machine integers are modelled as `Int` (C `int`); the global `rand()` calls
are modelled as nonnegative inputs (`Nat` parameters), one per call site,
matching C's guarantee that `rand()` returns a value in `[0, RAND_MAX]`.
-/

namespace TrainReservation

/-- `#define MAX_TRAINS 100` (main.cpp line 12). -/
def MAX_TRAINS : Nat := 100

/-- `#define CAPACITY 500` (main.cpp line 13). -/
def CAPACITY : Int := 500

/-- `#define BOOK_MIN 5` (main.cpp line 14). -/
def BOOK_MIN : Int := 5

/-- `#define BOOK_MAX 10` (main.cpp line 15). -/
def BOOK_MAX : Int := 10

/-- `#define MAX_THREADS 20` (main.cpp line 16). -/
def MAX_THREADS : Nat := 20

/-- `#define MAX_CONCURRENT_ACCESS 5` (main.cpp line 18). -/
def MAX_CONCURRENT_ACCESS : Int := 5

/-- `#define MAX_TIME 1` minutes (main.cpp line 19). -/
def MAX_TIME : Nat := 1

/-- `get_random_train` (main.cpp lines 39-41): `rand() % MAX_TRAINS`.
The `rand()` value is the nonnegative input `r`. -/
def get_random_train (r : Nat) : Nat :=
  r % MAX_TRAINS

/-- `get_random_bookings` (main.cpp lines 43-45):
`rand() % (BOOK_MAX - BOOK_MIN + 1) + BOOK_MIN`. -/
def get_random_bookings (r : Nat) : Int :=
  (r : Int) % (BOOK_MAX - BOOK_MIN + 1) + BOOK_MIN

/-- Outcome of one query, as printed by the switch in `worker_thread`
(main.cpp lines 100-132). -/
inductive QueryResult where
  /-- Case 1: inquiry, reports the current seat count. -/
  | inquired (seats : Int)
  /-- Case 2, then-branch: booked `n` seats, reports the remaining count. -/
  | bookSuccess (n : Int) (remaining : Int)
  /-- Case 2, else-branch: failed to book. -/
  | bookFailed
  /-- Case 3, then-branch: cancelled `n` seats, reports the remaining count. -/
  | cancelSuccess (n : Int) (remaining : Int)
  /-- Case 3, else-branch: no bookings to cancel. -/
  | cancelNoop
  deriving DecidableEq, Repr

/-- Case 1 of the switch (main.cpp lines 101-105): read-only inquiry on the
seat counter `a`. -/
def inquire (a : Int) : QueryResult × Int :=
  (.inquired a, a)

/-- Case 2 of the switch (main.cpp lines 106-116): booking `q` seats out of
`a` available: if `a ≥ q` subtract `q` and report success with the new
count, otherwise report failure and leave the count unchanged. -/
def book (q a : Int) : QueryResult × Int :=
  if a ≥ q then (.bookSuccess q (a - q), a - q) else (.bookFailed, a)

/-- Case 3 of the switch (main.cpp lines 118-131): cancellation on the seat
counter `a`.  `booked = CAPACITY - a`; if positive, cancel
`rand() % booked + 1` seats (the `rand()` value is the input `r`), otherwise
report that there is nothing to cancel. -/
def cancel (r : Nat) (a : Int) : QueryResult × Int :=
  let booked := CAPACITY - a
  if booked > 0 then
    let n := (r : Int) % booked + 1
    (.cancelSuccess n (a + n), a + n)
  else
    (.cancelNoop, a)

/-- The whole switch statement of `worker_thread` (main.cpp lines 100-132),
acting on the seat counter `a` of the chosen train.  `type` is
`rand() % 3 + 1`; `rb` and `rc` are the `rand()` values consumed inside
cases 2 and 3.  A `type` outside 1..3 matches no case: no query result, no
mutation. -/
def execute_query (type : Nat) (rb rc : Nat) (a : Int) : Option QueryResult × Int :=
  match type with
  | 1 => let p := inquire a; (some p.1, p.2)
  | 2 => let p := book (get_random_bookings rb) a; (some p.1, p.2)
  | 3 => let p := cancel rc a; (some p.1, p.2)
  | _ => (none, a)

/-- The initialisation loop of `main` (main.cpp lines 153-155): every entry
of `available_seats` set to `CAPACITY`. -/
def available_seats_init : List Int :=
  List.replicate MAX_TRAINS CAPACITY

/-- A guarded modulo mirroring C's `%`, whose behaviour is undefined for a
zero divisor: the error branch is `none`. -/
def checked_mod (x y : Int) : Option Int :=
  if y = 0 then none else some (x % y)

/-- Total (error-aware) embedding of case 3 of the switch (main.cpp lines
118-131): identical to `cancel` except that the modulo in
`rand() % booked_seats` goes through `checked_mod`, making a hypothetical
modulo-by-zero observable as `none`. -/
def cancel_total (r : Nat) (a : Int) : Option (QueryResult × Int) :=
  let booked := CAPACITY - a
  if booked > 0 then
    match checked_mod (r : Int) booked with
    | none => none
    | some m => some (.cancelSuccess (m + 1) (a + (m + 1)), a + (m + 1))
  else
    some (.cancelNoop, a)

/-- The quantity drawn by `get_random_bookings` lies in
`[BOOK_MIN, BOOK_MAX] = [5, 10]`. -/
lemma get_random_bookings_range (r : Nat) :
    BOOK_MIN ≤ get_random_bookings r ∧ get_random_bookings r ≤ BOOK_MAX := by
  unfold get_random_bookings BOOK_MIN BOOK_MAX
  have h6 : ((10 : Int) - 5 + 1) = 6 := by norm_num
  constructor
  · have := Int.emod_nonneg (r : Int) (by norm_num : ((10 : Int) - 5 + 1) ≠ 0)
    omega
  · have := Int.emod_lt_of_pos (r : Int) (by norm_num : (0 : Int) < 10 - 5 + 1)
    omega

/-- `book` keeps the seat counter inside `[0, CAPACITY]` for a nonnegative
requested quantity. -/
lemma book_bounds (q a : Int) (hq : 0 ≤ q) (h0 : 0 ≤ a) (hc : a ≤ CAPACITY) :
    0 ≤ (book q a).2 ∧ (book q a).2 ≤ CAPACITY := by
  unfold book
  split
  · rename_i h
    simp only []
    omega
  · simp_all

/-- `cancel` keeps the seat counter inside `[0, CAPACITY]`. -/
lemma cancel_bounds (r : Nat) (a : Int) (h0 : 0 ≤ a) (hc : a ≤ CAPACITY) :
    0 ≤ (cancel r a).2 ∧ (cancel r a).2 ≤ CAPACITY := by
  unfold cancel
  simp only []
  split
  · rename_i hpos
    have hne : CAPACITY - a ≠ 0 := by omega
    have h1 := Int.emod_nonneg (r : Int) hne
    have h2 := Int.emod_lt_of_pos (r : Int) hpos
    constructor <;> (simp; omega)
  · simp_all

/-- **C2.** Book postcondition (main.cpp lines 106-116): for every seat count
`a` and requested quantity `q`, booking succeeds exactly when `a ≥ q`, in
which case the new count `a - q` is both stored and reported; when `a < q`
the query reports failure and leaves the count unchanged. -/
theorem book_postcondition (q a : Int) :
    (a ≥ q → book q a = (.bookSuccess q (a - q), a - q)) ∧
    (a < q → book q a = (.bookFailed, a)) := by
  unfold book
  constructor
  · intro h
    rw [if_pos h]
  · intro h
    rw [if_neg (by omega)]

/-- Witness for `book_postcondition`: a booking of 7 out of 10 succeeds
leaving 3, and a booking of 12 out of 10 fails leaving 10. -/
theorem book_postcondition_witness :
    book 7 10 = (.bookSuccess 7 3, 3) ∧ book 12 10 = (.bookFailed, 10) :=
  ⟨(book_postcondition 7 10).1 (by decide), (book_postcondition 12 10).2 (by decide)⟩

/-- **C3.** Cancel postcondition (main.cpp lines 118-131): with
`booked = CAPACITY - a`, if `booked > 0` (for a state with `a ≤ CAPACITY`,
exactly when `a < CAPACITY`) the query adds back some `n` with
`1 ≤ n ≤ booked`, storing and reporting the new count `a + n`; if
`booked = 0` (`a = CAPACITY`) it reports a no-op and leaves the count
unchanged. -/
theorem cancel_postcondition (r : Nat) (a : Int) :
    (a < CAPACITY →
      ∃ n, 1 ≤ n ∧ n ≤ CAPACITY - a ∧ cancel r a = (.cancelSuccess n (a + n), a + n)) ∧
    (a = CAPACITY → cancel r a = (.cancelNoop, a)) := by
  unfold cancel
  constructor
  · intro h
    have hpos : CAPACITY - a > 0 := by omega
    have h1 := Int.emod_nonneg (r : Int) (by omega : CAPACITY - a ≠ 0)
    have h2 := Int.emod_lt_of_pos (r : Int) hpos
    refine ⟨(r : Int) % (CAPACITY - a) + 1, by omega, by omega, ?_⟩
    rw [if_pos hpos]
  · intro h
    rw [if_neg (by omega)]

/-- Witness for `cancel_postcondition`: cancelling on a train with 499 seats
available returns some `n ∈ [1, 1]`, and on a full train (500 available) it
is a no-op. -/
theorem cancel_postcondition_witness :
    (∃ n, 1 ≤ n ∧ n ≤ CAPACITY - 499 ∧
      cancel 8 499 = (.cancelSuccess n (499 + n), 499 + n)) ∧
    cancel 8 CAPACITY = (.cancelNoop, CAPACITY) :=
  ⟨(cancel_postcondition 8 499).1 (by decide),
   (cancel_postcondition 8 CAPACITY).2 rfl⟩

/-- **C1.** Quota-bounds invariant: every entry of the initial seats array is
`CAPACITY` (main.cpp lines 153-155), and the switch of `worker_thread`
(main.cpp lines 100-132) — inquiry, booking or cancellation, with any
`rand()` inputs — maps a seat count in `[0, CAPACITY]` to a seat count in
`[0, CAPACITY]`: a successful booking never drives it below 0 and a
successful cancellation never raises it above `CAPACITY`. -/
theorem quota_bounds (type rb rc : Nat) (a : Int) (h0 : 0 ≤ a) (hc : a ≤ CAPACITY) :
    (∀ x ∈ available_seats_init, x = CAPACITY) ∧
    0 ≤ (execute_query type rb rc a).2 ∧ (execute_query type rb rc a).2 ≤ CAPACITY := by
  refine ⟨fun x hx => List.eq_of_mem_replicate hx, ?_⟩
  match type with
  | 0 => exact ⟨h0, hc⟩
  | 1 => exact ⟨h0, hc⟩
  | 2 =>
    have hq := get_random_bookings_range rb
    have := book_bounds (get_random_bookings rb) a (by unfold BOOK_MIN at hq; omega) h0 hc
    exact this
  | 3 => exact cancel_bounds rc a h0 hc
  | (n + 4) => exact ⟨h0, hc⟩

/-- Witness for `quota_bounds`: a booking applied to a fresh train
(500 seats, quantity `0 % 6 + 5 = 5`) lands back inside `[0, CAPACITY]`. -/
theorem quota_bounds_witness :
    (∀ x ∈ available_seats_init, x = CAPACITY) ∧
    0 ≤ (execute_query 2 0 0 500).2 ∧ (execute_query 2 0 0 500).2 ≤ CAPACITY :=
  quota_bounds 2 0 0 500 (by decide) (by decide)

/-- **C10.** Modulo guard: the total embedding of the cancellation case,
where `rand() % booked_seats` is guarded against a zero divisor, never hits
the modulo-by-zero branch — it agrees with `cancel` on every input — and
whenever the query reports a successful cancellation the cancelled amount is
at least 1. -/
theorem cancel_mod_guard (r : Nat) (a : Int) :
    cancel_total r a = some (cancel r a) ∧
    (∀ n rem, (cancel r a).1 = QueryResult.cancelSuccess n rem → 1 ≤ n) := by
  unfold cancel_total cancel checked_mod
  simp only []
  constructor
  · split
    · rename_i hpos
      rw [if_neg (by omega : ¬ CAPACITY - a = 0)]
    · rfl
  · intro n rem h
    split at h
    · rename_i hpos
      simp only [Prod.fst] at h
      cases h
      have := Int.emod_nonneg (r : Int) (by omega : CAPACITY - a ≠ 0)
      omega
    · simp at h

/-- Witness for `cancel_mod_guard`: at `r = 3`, `a = 400` the guarded
embedding returns `some` of the plain result, and its cancelled amount
`3 % 100 + 1 = 4` is at least 1. -/
theorem cancel_mod_guard_witness :
    cancel_total 3 400 = some (cancel 3 400) ∧ (1 : Int) ≤ 4 :=
  ⟨(cancel_mod_guard 3 400).1,
   (cancel_mod_guard 3 400).2 4 404 (by decide)⟩

/-- Whether a query result is a successful booking. -/
def is_book_success : QueryResult → Bool
  | .bookSuccess _ _ => true
  | _ => false

/-- **C6.** Book exclusivity under serialization: starting from a
nonnegative seat count `a`, running `book q1` and then `book q2` on the
resulting count (the two bookings are serialized by the train's mutex;
quantifying over both `q1` and `q2` covers both orders) with
`a < q1 + q2` leaves at most one of the two succeeding, and the total
amount subtracted over both attempts never exceeds `a`. -/
theorem book_exclusivity (a q1 q2 : Int) (hsum : a < q1 + q2) (h0 : 0 ≤ a) :
    (is_book_success (book q1 a).1 = false ∨
      is_book_success (book q2 (book q1 a).2).1 = false) ∧
    a - (book q2 (book q1 a).2).2 ≤ a := by
  unfold book is_book_success
  by_cases h1 : a ≥ q1
  · rw [if_pos h1]
    simp only []
    rw [if_neg (by omega : ¬ a - q1 ≥ q2)]
    exact ⟨Or.inr rfl, by omega⟩
  · rw [if_neg h1]
    simp only []
    by_cases h2 : a ≥ q2
    · rw [if_pos h2]
      exact ⟨Or.inl trivial, by omega⟩
    · rw [if_neg h2]
      exact ⟨Or.inl trivial, by omega⟩

/-- Witness for `book_exclusivity`: with 10 seats and quantities 8 and 8
(`10 < 16`), the second booking fails and only 8 seats are subtracted. -/
theorem book_exclusivity_witness :
    ((is_book_success (book 8 10).1 = false ∨
       is_book_success (book 8 (book 8 10).2).1 = false) ∧
     (10 : Int) - (book 8 (book 8 10).2).2 ≤ 10) :=
  book_exclusivity 10 8 8 (by decide) (by decide)

/-- One worker access to the seats array (main.cpp lines 95-131), as a total
function on the pool: the train index is `get_random_train rt`; the lookup
`available_seats[train_num]` is the `Option`-returning `List.get?`, whose
`none` branch is the out-of-bounds case, and the switch result is written
back at the same index. -/
def worker_update (seats : List Int) (rt type rb rc : Nat) :
    Option (List Int) :=
  let train_num := get_random_train rt
  match seats.get? train_num with
  | some a => some (seats.set train_num (execute_query type rb rc a).2)
  | none => none

/-- **C9.** Index safety: `get_random_train` always lands in
`[0, MAX_TRAINS)`, so on any seats array of length `MAX_TRAINS` the
`Option`-returning embedding of a worker's array accesses never takes its
out-of-bounds (`none`) branch. -/
theorem index_safety (rt : Nat) (seats : List Int)
    (hlen : seats.length = MAX_TRAINS) (type rb rc : Nat) :
    get_random_train rt < MAX_TRAINS ∧ (worker_update seats rt type rb rc).isSome := by
  have htrain : get_random_train rt < MAX_TRAINS :=
    Nat.mod_lt rt (by decide : 0 < MAX_TRAINS)
  refine ⟨htrain, ?_⟩
  unfold worker_update
  simp only []
  have h : seats.get? (get_random_train rt) = some (seats.get ⟨get_random_train rt, by omega⟩) :=
    List.get?_eq_get (by omega)
  rw [h]
  rfl

/-- Witness for `index_safety`: the very first access on the freshly
initialised pool is in bounds. -/
theorem index_safety_witness :
    get_random_train 0 < MAX_TRAINS ∧
    (worker_update available_seats_init 0 1 0 0).isSome :=
  index_safety 0 available_seats_init (by simp [available_seats_init]) 1 0 0

/-- State of the admission gate (main.cpp lines 27-29): the shared counter
`active_access_count`, together with the set of worker threads currently
holding a slot (those between their increment at line 85 and their decrement
at line 140). -/
structure GateState where
  /-- The worker threads currently inside the critical region. -/
  holders : Finset (Fin MAX_THREADS)
  /-- The shared counter `active_access_count` (main.cpp line 29). -/
  active_access_count : Int
  deriving DecidableEq

/-- Initial gate state: `active_access_count = 0` (main.cpp line 29) and no
thread inside. -/
def gateInit : GateState :=
  ⟨∅, 0⟩

/-- One step of the admission gate, as serialized by `access_mutex`
(main.cpp lines 73-88 and 137-141).  A thread `t` not yet holding a slot may
increment the counter only after the wait predicate
`active_access_count < MAX_CONCURRENT_ACCESS` of `access_cond.wait` holds
(lines 80-85); a thread holding a slot may decrement it exactly once
(lines 139-140). -/
inductive GateStep : GateState → GateState → Prop where
  /-- `active_access_count++` after the predicate check (main.cpp line 85). -/
  | acquire (s : GateState) (t : Fin MAX_THREADS)
      (hwait : s.active_access_count < MAX_CONCURRENT_ACCESS)
      (hout : t ∉ s.holders) :
      GateStep s ⟨insert t s.holders, s.active_access_count + 1⟩
  /-- `active_access_count--` by a current holder (main.cpp line 140). -/
  | release (s : GateState) (t : Fin MAX_THREADS)
      (hin : t ∈ s.holders) :
      GateStep s ⟨s.holders.erase t, s.active_access_count - 1⟩

/-- Gate states reachable from `gateInit` by any interleaving of acquire
and release steps. -/
def GateReachable : GateState → Prop :=
  Relation.ReflTransGen GateStep gateInit

/-- Inductive invariant of the gate: the counter equals the number of
threads inside and never exceeds `MAX_CONCURRENT_ACCESS`. -/
def GateInv (s : GateState) : Prop :=
  s.active_access_count = s.holders.card ∧
  s.active_access_count ≤ MAX_CONCURRENT_ACCESS

lemma gateInv_init : GateInv gateInit := by
  constructor <;> simp [gateInit, MAX_CONCURRENT_ACCESS]

lemma gateInv_step {s s' : GateState} (hs : GateInv s) (h : GateStep s s') :
    GateInv s' := by
  obtain ⟨hcard, hle⟩ := hs
  cases h with
  | acquire t hwait hout =>
    refine ⟨?_, ?_⟩
    · show s.active_access_count + 1 = ((insert t s.holders).card : Int)
      rw [Finset.card_insert_of_not_mem hout]
      omega
    · show s.active_access_count + 1 ≤ MAX_CONCURRENT_ACCESS
      omega
  | release t hin =>
    have hpos : 1 ≤ s.holders.card := Finset.card_pos.mpr ⟨t, hin⟩
    refine ⟨?_, ?_⟩
    · show s.active_access_count - 1 = ((s.holders.erase t).card : Int)
      rw [Finset.card_erase_of_mem hin]
      omega
    · show s.active_access_count - 1 ≤ MAX_CONCURRENT_ACCESS
      omega

lemma gateInv_reachable {s : GateState} (h : GateReachable s) : GateInv s := by
  induction h with
  | refl => exact gateInv_init
  | tail _ hstep ih => exact gateInv_step ih hstep

/-- **C4.** Admission-gate bounds: the counter is incremented only after the
wait predicate `active_access_count < MAX_CONCURRENT_ACCESS` holds and
decremented exactly once per passage by a thread actually inside, so in
every reachable gate state `0 ≤ active_access_count ≤ MAX_CONCURRENT_ACCESS`:
an acquire never returns having exceeded the capacity. -/
theorem gate_bounds (s : GateState) (h : GateReachable s) :
    0 ≤ s.active_access_count ∧ s.active_access_count ≤ MAX_CONCURRENT_ACCESS := by
  obtain ⟨hcard, hle⟩ := gateInv_reachable h
  refine ⟨?_, hle⟩
  rw [hcard]
  exact_mod_cast Nat.zero_le _

/-- Witness for `gate_bounds`: the state after thread 0 acquires a slot from
the initial state is reachable and satisfies the bounds. -/
theorem gate_bounds_witness :
    0 ≤ (GateState.mk (insert (⟨0, by decide⟩ : Fin MAX_THREADS) ∅) (0 + 1)).active_access_count ∧
    (GateState.mk (insert (⟨0, by decide⟩ : Fin MAX_THREADS) ∅) (0 + 1)).active_access_count ≤
      MAX_CONCURRENT_ACCESS :=
  gate_bounds _
    (Relation.ReflTransGen.single
      (GateStep.acquire gateInit ⟨0, by decide⟩ (by decide) (by decide)))

/-- Observable events of one pass through the body of `worker_thread`
(main.cpp lines 60-147) and of the final loop of `main` (lines 170-172), in
program order. -/
inductive Event where
  /-- `sleep_for(rand() % 500 ms)` (line 61). -/
  | think
  /-- Drawing `train_num` and `type` (lines 62-63). -/
  | pickOp (train : Nat) (type : Nat)
  /-- `print_query(..., "WAITING for system access.")` (line 74). -/
  | gateWait
  /-- Claiming an admission-gate slot: `active_access_count++` under
  `access_mutex` after the wait predicate holds (lines 77-85). -/
  | gateAcquire
  /-- Locking `train_mutex[i]` (line 95). -/
  | lockTrain (i : Nat)
  /-- Locking `print_mutex` (line 98). -/
  | lockPrint
  /-- Reading `available_seats[i]` (lines 103, 108, 112, 119, 125). -/
  | readSeats (i : Nat)
  /-- Writing value `v` to `available_seats[i]` (lines 109, 122). -/
  | writeSeats (i : Nat) (v : Int)
  /-- Unlocking `print_mutex` (destructor, line 133). -/
  | unlockPrint
  /-- Unlocking `train_mutex[i]` (destructor, line 133). -/
  | unlockTrain (i : Nat)
  /-- Releasing the gate slot: `active_access_count--` under `access_mutex`
  (lines 139-141). -/
  | gateRelease
  /-- `access_cond.notify_one()` (line 144). -/
  | notifyOne
  deriving DecidableEq, Repr

/-- Reads and writes of `available_seats[i]` performed by the switch
(main.cpp lines 100-132) for query kind `type` on a count of `a`: an
inquiry reads once; a successful booking reads the guard, writes, and reads
again for the "Remaining" message; a failed booking only reads the guard;
a cancellation reads `available_seats[i]` for `booked_seats`, then on
success writes and reads again for the message. -/
def query_events (type : Nat) (rb rc : Nat) (i : Nat) (a : Int) : List Event :=
  match type with
  | 1 => [.readSeats i]
  | 2 =>
    let q := get_random_bookings rb
    if a ≥ q then [.readSeats i, .writeSeats i (a - q), .readSeats i]
    else [.readSeats i]
  | 3 =>
    if CAPACITY - a > 0 then
      let n := (rc : Int) % (CAPACITY - a) + 1
      [.readSeats i, .writeSeats i (a + n), .readSeats i]
    else [.readSeats i]
  | _ => []

/-- One iteration of the `while (true)` loop of `worker_thread` (main.cpp
lines 60-147), as the list of events it performs together with whether the
loop continues.  `elapsed` is the whole-second duration measured at line 67;
`rt`, `rty`, `rb`, `rc` are the `rand()` values drawn at lines 62, 63 and in
the switch; `a` is the seat count of the chosen train.  When
`elapsed ≥ MAX_TIME * 60` the iteration breaks out (line 69) after the sleep
and the draws but before the gate, the locks and the switch. -/
def worker_iteration (elapsed : Nat) (rt rty rb rc : Nat) (a : Int) :
    List Event × Bool :=
  let train_num := get_random_train rt
  let type := rty % 3 + 1
  if elapsed ≥ MAX_TIME * 60 then
    ([.think, .pickOp train_num type], false)
  else
    ([.think, .pickOp train_num type, .gateWait, .gateAcquire,
        .lockTrain train_num, .lockPrint]
      ++ query_events type rb rc train_num a
      ++ [.unlockPrint, .unlockTrain train_num, .gateRelease, .notifyOne],
     true)

/-- `Event.gateRelease` is never among the seat-array accesses of the
switch. -/
lemma gateRelease_not_mem_query_events (type rb rc i : Nat) (a : Int) :
    Event.gateRelease ∉ query_events type rb rc i a := by
  match type with
  | 0 => simp [query_events]
  | 1 => simp [query_events]
  | 2 =>
    simp only [query_events]
    split <;> simp
  | 3 =>
    simp only [query_events]
    split <;> simp
  | (n + 4) => simp [query_events]

/-- **C5.** Release ordering: in every iteration of the worker loop that
performs an operation (one not cut short by the deadline), the trace ends
with unlocking the chosen train's mutex, then releasing the admission-gate
slot, then `notify_one`; the train mutex was locked earlier in the trace and
no gate release occurs before the unlock, so the gate slot is held for the
whole interval in which the resource lock is held and the gate is never
released while the worker still holds a train mutex. -/
theorem release_ordering (elapsed rt rty rb rc : Nat) (a : Int)
    (hdl : elapsed < MAX_TIME * 60) :
    ∃ l, (worker_iteration elapsed rt rty rb rc a).1 =
        l ++ [.unlockTrain (get_random_train rt), .gateRelease, .notifyOne] ∧
      Event.lockTrain (get_random_train rt) ∈ l ∧
      Event.gateRelease ∉ l := by
  unfold worker_iteration
  simp only []
  rw [if_neg (by omega)]
  refine ⟨[.think, .pickOp (get_random_train rt) (rty % 3 + 1), .gateWait, .gateAcquire,
      .lockTrain (get_random_train rt), .lockPrint]
      ++ query_events (rty % 3 + 1) rb rc (get_random_train rt) a
      ++ [.unlockPrint], ?_, ?_, ?_⟩
  · simp
  · simp
  · have h := gateRelease_not_mem_query_events (rty % 3 + 1) rb rc (get_random_train rt) a
    simp [h]

/-- Witness for `release_ordering`: a concrete iteration at `elapsed = 0`
with all `rand()` values 0 and a full train. -/
theorem release_ordering_witness :
    ∃ l, (worker_iteration 0 0 0 0 0 500).1 =
        l ++ [.unlockTrain (get_random_train 0), .gateRelease, .notifyOne] ∧
      Event.lockTrain (get_random_train 0) ∈ l ∧
      Event.gateRelease ∉ l :=
  release_ordering 0 0 0 0 0 500 (by decide)

/-- **C8.** Deadline policy: in any iteration of the worker loop whose
elapsed time has reached `MAX_TIME * 60` seconds, the loop exits (the
continue flag is false) and the iteration's trace contains no gate
acquisition, no train-mutex lock and no write to the seats array: no new
operation is started past the deadline. -/
theorem deadline_policy (elapsed rt rty rb rc : Nat) (a : Int)
    (hdl : elapsed ≥ MAX_TIME * 60) :
    (worker_iteration elapsed rt rty rb rc a).2 = false ∧
    ∀ e ∈ (worker_iteration elapsed rt rty rb rc a).1,
      e ≠ Event.gateAcquire ∧ (∀ i, e ≠ Event.lockTrain i) ∧
      (∀ i v, e ≠ Event.writeSeats i v) := by
  unfold worker_iteration
  simp only []
  rw [if_pos hdl]
  refine ⟨rfl, ?_⟩
  intro e he
  rcases List.mem_cons.mp he with h | h
  · subst h
    exact ⟨by simp, fun i => by simp, fun i v => by simp⟩
  · rcases List.mem_cons.mp h with h2 | h2
    · subst h2
      exact ⟨by simp, fun i => by simp, fun i v => by simp⟩
    · simp at h2

/-- Witness for `deadline_policy`: at `elapsed = 60` the iteration stops
without gate, lock or write events. -/
theorem deadline_policy_witness :
    (worker_iteration 60 0 0 0 0 500).2 = false ∧
    ∀ e ∈ (worker_iteration 60 0 0 0 0 500).1,
      e ≠ Event.gateAcquire ∧ (∀ i, e ≠ Event.lockTrain i) ∧
      (∀ i v, e ≠ Event.writeSeats i v) :=
  deadline_policy 60 0 0 0 0 500 (by decide)

/-- The final reporting loop of `main` (main.cpp lines 170-172):
`for (i = 0; i < MAX_TRAINS; i++)` printing `(i, available_seats[i])`.
The loop index is `i`; `fuel` bounds the remaining iterations (the loop from
`i` runs at most `MAX_TRAINS - i ≤ MAX_TRAINS` more times). -/
def report_loop (seats : List Int) : Nat → Nat → List (Nat × Int)
  | 0, _ => []
  | fuel + 1, i =>
    if i < MAX_TRAINS then (i, seats.getD i 0) :: report_loop seats fuel (i + 1)
    else []

/-- The sequence of `(train, seats)` pairs printed by `main` in the final
reservation chart. -/
def final_report (seats : List Int) : List (Nat × Int) :=
  report_loop seats MAX_TRAINS 0

/-- The events performed by the final reporting loop of `main` (main.cpp
lines 170-172): each iteration reads `available_seats[i]` directly - the
loop body contains no `lock_guard` on `train_mutex[i]`. -/
def report_events_loop : Nat → Nat → List Event
  | 0, _ => []
  | fuel + 1, i =>
    if i < MAX_TRAINS then Event.readSeats i :: report_events_loop fuel (i + 1)
    else []

/-- The event trace of the whole final reporting pass. -/
def final_report_events : List Event :=
  report_events_loop MAX_TRAINS 0

/-- Whether every `readSeats i` in a trace happens while `train_mutex[i]` is
held, scanning left to right with `held` the list of currently held train
mutexes. -/
def reads_locked : List Event → List Nat → Bool
  | [], _ => true
  | Event.lockTrain i :: rest, held => reads_locked rest (i :: held)
  | Event.unlockTrain i :: rest, held => reads_locked rest (held.erase i)
  | Event.readSeats i :: rest, held => held.contains i && reads_locked rest held
  | _ :: rest, held => reads_locked rest held

lemma report_loop_fst (seats : List Int) :
    ∀ fuel i, i + fuel = MAX_TRAINS →
      (report_loop seats fuel i).map Prod.fst = List.range' i fuel := by
  intro fuel
  induction fuel with
  | zero => intro i _; rfl
  | succ fuel ih =>
    intro i hi
    rw [report_loop, if_pos (by omega), List.map_cons, List.range'_succ i fuel 1,
      ih (i + 1) (by omega)]

lemma report_loop_snd (seats : List Int) :
    ∀ fuel i, ∀ p ∈ report_loop seats fuel i, p.2 = seats.getD p.1 0 := by
  intro fuel
  induction fuel with
  | zero => intro i p hp; simp [report_loop] at hp
  | succ fuel ih =>
    intro i p hp
    rw [report_loop] at hp
    by_cases hi : i < MAX_TRAINS
    · rw [if_pos hi] at hp
      rcases List.mem_cons.mp hp with h | h
      · subst h; rfl
      · exact ih (i + 1) p h
    · rw [if_neg hi] at hp
      simp at hp

lemma report_events_loop_reads_only :
    ∀ fuel i, ∀ e ∈ report_events_loop fuel i, ∃ j, e = Event.readSeats j := by
  intro fuel
  induction fuel with
  | zero => intro i e he; simp [report_events_loop] at he
  | succ fuel ih =>
    intro i e he
    rw [report_events_loop] at he
    by_cases hi : i < MAX_TRAINS
    · rw [if_pos hi] at he
      rcases List.mem_cons.mp he with h | h
      · exact ⟨i, h⟩
      · exact ih (i + 1) e h
    · rw [if_neg hi] at he
      simp at he

/-- **C7 (counterexample).** The claim says each seat value of the final
report pass is read while holding that train's mutex; but the trace of the
final loop of `main` (main.cpp lines 170-172) takes no train mutex at all,
so the locked-read check fails on it (already at its very first read). -/
theorem final_report_not_locked :
    reads_locked final_report_events [] = false := by
  decide

/-- **C7 (amended).** Final report read pass: after all worker threads are
joined, `main` reports the `(train, available)` pair of every train in the
pool in train-id order (the reported ids are exactly `0, ..., MAX_TRAINS-1`
in order, each paired with that train's seat count); the reads of this pass
are performed without acquiring any train mutex (the pass performs only
read events). -/
theorem final_report_pass (seats : List Int) :
    (final_report seats).map Prod.fst = List.range MAX_TRAINS ∧
    (∀ p ∈ final_report seats, p.2 = seats.getD p.1 0) ∧
    (∀ e ∈ final_report_events, ∃ j, e = Event.readSeats j) := by
  refine ⟨?_, report_loop_snd seats MAX_TRAINS 0, report_events_loop_reads_only MAX_TRAINS 0⟩
  rw [final_report, report_loop_fst seats MAX_TRAINS 0 (by omega), List.range_eq_range']

end TrainReservation
